import Mathlib

/-!
Verification development for the Spoiled-Vine monitoring dashboard.

The definitions below are a shallow embedding of the orchestration core of
the repository: the in-memory queue manager (`src/services/queue-manager.ts`),
the violation scan pipeline (`src/components/reviews/violation-scanner.tsx`
and its per-review variant), the product scraper result ingestion
(`src/services/product-scraper.ts` and its variant), and the SQL helper
`count_product_violations` from the migrations.  Stateful code is embedded as
explicit state records with a small-step transition relation; asynchronous
interleaving points of the single-threaded event loop are reflected by the
granularity of the transition constructors.
-/

namespace QueueMgr

/-- Lifecycle status of a queue item (`'queued' | 'processing' | 'completed'
| 'failed'` in `queue-manager.ts`). -/
inductive Status where
  | queued
  | processing
  | completed
  | failed
deriving DecidableEq, Repr

/-- One entry of the `QueueManager` queue map (interface `QueueItem`).
Timestamps are abstracted to naturals. -/
structure Item where
  id : String
  asin : String
  priority : Int
  status : Status
  error : Option String
  progress : Nat
  attempts : Nat
  queuedAt : Nat
deriving DecidableEq, Repr

/-- The `maxConcurrent` field of `QueueManager` (default 3). -/
def maxConcurrent : Nat := 3

/-- The `maxRetries` field of `QueueManager` (default 3). -/
def maxRetries : Nat := 3

/-- Position of the event loop inside `processQueue`: either between ticks
(`idle`), or awaiting `processItem` for the item with the given id.  The
`await this.processItem(nextItem)` in `processQueue` means no new item is
promoted while a previous one is still being driven to a terminal state. -/
inductive Phase where
  | idle
  | running (id : String)
deriving DecidableEq, Repr

/-- State of the queue manager singleton: the queue map (as a list in map
insertion order), the `processing` id set, the event-loop phase, and the
`products` store statuses keyed by ASIN (the `status` column touched through
supabase). -/
structure State where
  queue : List Item
  processing : List String
  phase : Phase
  store : String → Option String

/-- Comparator of `getQueueItems`: higher priority first, then earlier
`queuedAt` first. -/
def itemBefore (a b : Item) : Bool :=
  if a.priority ≠ b.priority then b.priority < a.priority else a.queuedAt ≤ b.queuedAt

/-- Insert into a sorted list according to `itemBefore`. -/
def insertItem (a : Item) : List Item → List Item
  | [] => [a]
  | b :: l => if itemBefore a b then a :: b :: l else b :: insertItem a l

/-- The sort of `getQueueItems` (stable sort by the comparator). -/
def sortItems : List Item → List Item
  | [] => []
  | a :: l => insertItem a (sortItems l)

/-- The eligibility predicate of the `items.find` call in `processQueue`:
status `queued`, not already in the `processing` set, and attempts below
`maxRetries`. -/
def eligible (processing : List String) (i : Item) : Bool :=
  i.status == Status.queued && !(processing.contains i.id) && i.attempts < maxRetries

/-- The `nextItem` selection of `processQueue`: first eligible item of the
priority-sorted queue. -/
def selectNext (s : State) : Option Item :=
  (sortItems s.queue).find? (eligible s.processing)

/-- Point update of the products store (`supabase.from('products').update
({status}).eq('asin', asin)`): only an existing row is updated. -/
def storeSet (st : String → Option String) (asin v : String) : String → Option String :=
  fun a => if a = asin then (st a).map (fun _ => v) else st a

/-- The synchronous prefix of `processItem` plus its first store write: the
item is added to `processing`, its status becomes `processing`, its attempt
counter is incremented, and the product row is marked `refreshing`. -/
def startItem (s : State) (it : Item) : State :=
  { queue := s.queue.map (fun x =>
      if x.id = it.id then { x with status := Status.processing, attempts := x.attempts + 1 } else x)
    processing := it.id :: s.processing
    phase := Phase.running it.id
    store := storeSet s.store it.asin "refreshing" }

/-- Successful exit of the `processItem` polling loop: the product row was
observed `active`, the item becomes `completed` with progress 100, and the
`finally` block removes it from `processing`. -/
def completeItem (s : State) (id : String) : State :=
  { queue := s.queue.map (fun x =>
      if x.id = id then { x with status := Status.completed, progress := 100 } else x)
    processing := s.processing.erase id
    phase := Phase.idle
    store := s.store }

/-- The `catch` branch of `processItem`: the item becomes `failed` with the
error recorded, the product row is reset to `active`, and the `finally`
block removes the id from `processing`. -/
def failItem (s : State) (id : String) (e : String) : State :=
  { queue := s.queue.map (fun x =>
      if x.id = id then { x with status := Status.failed, error := some e } else x)
    processing := s.processing.erase id
    phase := Phase.idle
    store := match (s.queue.find? (fun x => x.id = id)) with
      | some it => storeSet s.store it.asin "active"
      | none => s.store }

/-- Queue item construction in `addToQueue`: fresh id with a role tag,
status `queued`, progress 0, attempts 0. -/
def mkItem (tag : String) (uuid : String) (asin : String) (priority : Int) (now : Nat) : Item :=
  { id := tag ++ uuid
    asin := asin
    priority := priority
    status := Status.queued
    error := none
    progress := 0
    attempts := 0
    queuedAt := now }

/-- The items appended by `addToQueue`: for each ASIN one product item and
one review item, consuming two fresh uuids. -/
def addItems (uuids : Nat → String) (k : Nat) (asins : List String) (priority : Int) (now : Nat) :
    List Item :=
  match asins with
  | [] => []
  | a :: rest =>
      mkItem "product_" (uuids k) a priority now ::
      mkItem "review_" (uuids (k + 1)) a priority now ::
      addItems uuids (k + 2) rest priority now

/-- The per-ASIN store writes of `addToQueue`: each listed product row is set
to status `queued`. -/
def queueStatuses (asins : List String) (st : String → Option String) : String → Option String :=
  asins.foldl (fun acc a => storeSet acc a "queued") st

/-- The whole `addToQueue(asins, priority)` call, with the uuid supply made
explicit. -/
def addToQueue (s : State) (asins : List String) (priority : Int) (now : Nat)
    (uuids : Nat → String) : State :=
  { queue := s.queue ++ addItems uuids 0 asins priority now
    processing := s.processing
    phase := s.phase
    store := queueStatuses asins s.store }

/-- Per-item action of `retryFailed`: a failed item with attempts still
below `maxRetries` goes back to `queued` with its error cleared; anything
else is untouched. -/
def retryItem (it : Item) : Item :=
  if it.status = Status.failed ∧ it.attempts < maxRetries then
    { it with status := Status.queued, error := none }
  else it

/-- The `retryFailed` operation. -/
def retryFailedState (s : State) : State :=
  { s with queue := s.queue.map retryItem }

/-- The `clearCompleted` operation: completed items are deleted. -/
def clearCompletedState (s : State) : State :=
  { s with queue := s.queue.filter (fun it => !(it.status == Status.completed)) }

/-- The `clearFailed` operation: failed items are deleted. -/
def clearFailedState (s : State) : State :=
  { s with queue := s.queue.filter (fun it => !(it.status == Status.failed)) }

/-- The delayed deletion scheduled in the `finally` block of `processItem`
for a completed item. -/
def removeItem (s : State) (id : String) : State :=
  { s with queue := s.queue.filter (fun it => !(it.id == id)) }

/-- Number of queue items whose status is `processing` (the `processing`
component of `getQueueStatus`). -/
def countProcessing (s : State) : Nat :=
  (s.queue.filter (fun i => i.status == Status.processing)).length

/-- Freshness of the ids produced by `crypto.randomUUID()` for one
`addToQueue` call: all ids (old and new together) are pairwise distinct. -/
def freshIds (s : State) (asins : List String) (priority : Int) (now : Nat)
    (uuids : Nat → String) : Prop :=
  ((s.queue ++ addItems uuids 0 asins priority now).map (fun i => i.id)).Nodup

/-- Event-loop steps of the queue manager.  `promote` is a `processQueue`
tick that finds an eligible item (its guard is the `processing.size <
maxConcurrent` check); `finishOk`/`finishFail` are the two terminal exits of
`processItem`; the remaining constructors are the public mutators, which run
in event-loop turns interleaved with the processing loop, and an
environment write to the products store (the scraper services). -/
inductive Step : State → State → Prop where
  | promote (s : State) (it : Item) :
      s.phase = Phase.idle →
      s.processing.length < maxConcurrent →
      selectNext s = some it →
      Step s (startItem s it)
  | finishOk (s : State) (id : String) (it : Item) :
      s.phase = Phase.running id →
      s.queue.find? (fun x => x.id = id) = some it →
      s.store it.asin = some "active" →
      Step s (completeItem s id)
  | finishFail (s : State) (id : String) (e : String) :
      s.phase = Phase.running id →
      Step s (failItem s id e)
  | add (s : State) (asins : List String) (priority : Int) (now : Nat) (uuids : Nat → String) :
      freshIds s asins priority now uuids →
      Step s (addToQueue s asins priority now uuids)
  | retry (s : State) :
      Step s (retryFailedState s)
  | clearCompleted (s : State) :
      Step s (clearCompletedState s)
  | clearFailed (s : State) :
      Step s (clearFailedState s)
  | removeCompleted (s : State) (id : String) (it : Item) :
      s.queue.find? (fun x => x.id = id) = some it →
      it.status = Status.completed →
      Step s (removeItem s id)
  | storeWrite (s : State) (a v : String) :
      Step s { s with store := storeSet s.store a v }

/-- Initial state of the singleton: empty queue, empty processing set, loop
between ticks. -/
def initState : State :=
  { queue := [], processing := [], phase := Phase.idle, store := fun _ => none }

/-- Reachability from the initial state along event-loop steps. -/
def Reachable (s : State) : Prop :=
  Relation.ReflTransGen Step initState s

end QueueMgr

namespace QueueMgr

/-- Auxiliary: a map that does not touch ids leaves the id list unchanged. -/
theorem ids_map_update {l : List Item} {f : Item → Item} (hf : ∀ x, (f x).id = x.id) :
    (l.map f).map (fun i : Item => i.id) = l.map (fun i : Item => i.id) := by
  rw [List.map_map]
  exact List.map_congr_left (fun x _ => hf x)

/-- Auxiliary: an empty boolean filter means the predicate fails everywhere. -/
theorem filter_nil_iff {l : List Item} {p : Item → Bool} :
    l.filter p = [] ↔ ∀ x ∈ l, p x = false := by
  simp [List.filter_eq_nil_iff]

/-- Auxiliary: a list with pairwise-distinct ids whose members all carry the
same id has at most one element. -/
theorem len_le_one_of_all_eq {l : List Item} {id : String}
    (hn : (l.map (fun i : Item => i.id)).Nodup) (h : ∀ x ∈ l, x.id = id) : l.length ≤ 1 := by
  match l with
  | [] => simp
  | [x] => simp
  | x :: y :: t =>
      exfalso
      have hx := h x (by simp)
      have hy := h y (by simp)
      simp [List.nodup_cons] at hn
      exact hn.1.1 (hx.trans hy.symm)

/-- Auxiliary: every item produced by `addItems` is freshly queued. -/
theorem addItems_all_queued (uuids : Nat → String) (k : Nat) (asins : List String)
    (priority : Int) (now : Nat) :
    ∀ x ∈ addItems uuids k asins priority now, x.status = Status.queued := by
  induction asins generalizing k with
  | nil => intro x hx; simp [addItems] at hx
  | cons a rest ih =>
      intro x hx
      simp only [addItems, List.mem_cons] at hx
      rcases hx with h | h | h
      · subst h; rfl
      · subst h; rfl
      · exact ih (k + 2) x h

/-- Auxiliary: `retryItem` never changes the id. -/
theorem retryItem_id (it : Item) : (retryItem it).id = it.id := by
  unfold retryItem; split <;> rfl

/-- Auxiliary: `retryItem` neither creates nor destroys a `processing` status. -/
theorem retryItem_processing (it : Item) :
    ((retryItem it).status == Status.processing) = (it.status == Status.processing) := by
  unfold retryItem
  split
  · rename_i hcond
    simp [hcond.1]
  · rfl

/-- The inductive invariant of the queue manager: ids are pairwise distinct
and, between ticks, no item is mid-processing, while during an awaited
`processItem` exactly the selected item is `processing`. -/
def Good (s : State) : Prop :=
  (s.queue.map (fun i : Item => i.id)).Nodup ∧
  (s.phase = Phase.idle → countProcessing s = 0 ∧ s.processing = []) ∧
  (∀ id, s.phase = Phase.running id →
    (∀ it ∈ s.queue, it.status = Status.processing → it.id = id) ∧ s.processing = [id])

theorem good_init : Good initState := by
  refine ⟨by simp [initState], fun _ => ⟨rfl, rfl⟩, fun id h => ?_⟩
  simp [initState] at h

theorem good_step {s s' : State} (hg : Good s) (h : Step s s') : Good s' := by
  obtain ⟨hids, hidleInv, hrunInv⟩ := hg
  cases h with
  | promote it hidle hlen hsel =>
      obtain ⟨hcount, hproc⟩ := hidleInv hidle
      have hnone : ∀ x ∈ s.queue, (x.status == Status.processing) = false :=
        filter_nil_iff.mp (List.length_eq_zero.mp hcount)
      refine ⟨?_, ?_, ?_⟩
      · rw [show (startItem s it).queue = s.queue.map (fun x =>
            if x.id = it.id then { x with status := Status.processing, attempts := x.attempts + 1 }
            else x) from rfl]
        rw [ids_map_update (by intro x; split <;> rfl)]
        exact hids
      · intro hph
        simp [startItem] at hph
      · intro id hph
        have heq : it.id = id := by simpa [startItem] using hph
        subst heq
        constructor
        · intro x hx hxs
          simp only [startItem, List.mem_map] at hx
          obtain ⟨y, hy, rfl⟩ := hx
          by_cases hid : y.id = it.id
          · simp [hid]
          · simp only [if_neg hid] at hxs ⊢
            have := hnone y hy
            rw [hxs] at this
            simp at this
        · simp [startItem, hproc]
  | finishOk id it hrun hfind hact =>
      obtain ⟨hall, hproc⟩ := hrunInv id hrun
      refine ⟨?_, ?_, ?_⟩
      · rw [show (completeItem s id).queue = s.queue.map (fun x =>
            if x.id = id then { x with status := Status.completed, progress := 100 }
            else x) from rfl]
        rw [ids_map_update (by intro x; split <;> rfl)]
        exact hids
      · intro _
        constructor
        · unfold countProcessing
          rw [List.length_eq_zero]
          apply filter_nil_iff.mpr
          intro x hx
          simp only [completeItem, List.mem_map] at hx
          obtain ⟨y, hy, rfl⟩ := hx
          by_cases hid : y.id = id
          · simp [hid]
          · simp only [if_neg hid]
            by_contra hb
            simp at hb
            exact hid (hall y hy hb)
        · simp [completeItem, hproc]
      · intro id' hph
        simp [completeItem] at hph
  | finishFail id e hrun =>
      obtain ⟨hall, hproc⟩ := hrunInv id hrun
      refine ⟨?_, ?_, ?_⟩
      · rw [show (failItem s id e).queue = s.queue.map (fun x =>
            if x.id = id then { x with status := Status.failed, error := some e }
            else x) from rfl]
        rw [ids_map_update (by intro x; split <;> rfl)]
        exact hids
      · intro _
        constructor
        · unfold countProcessing
          rw [List.length_eq_zero]
          apply filter_nil_iff.mpr
          intro x hx
          simp only [failItem, List.mem_map] at hx
          obtain ⟨y, hy, rfl⟩ := hx
          by_cases hid : y.id = id
          · simp [hid]
          · simp only [if_neg hid]
            by_contra hb
            simp at hb
            exact hid (hall y hy hb)
        · simp [failItem, hproc]
      · intro id' hph
        simp [failItem] at hph
  | add asins priority now uuids hfresh =>
      have hq := addItems_all_queued uuids 0 asins priority now
      refine ⟨hfresh, ?_, ?_⟩
      · intro hph
        obtain ⟨hcount, hproc⟩ := hidleInv hph
        constructor
        · unfold countProcessing at hcount ⊢
          simp only [addToQueue, List.filter_append, List.length_append]
          rw [List.length_eq_zero.mp hcount]
          simp only [List.filter_nil, List.length_nil, Nat.zero_add]
          rw [List.length_eq_zero]
          apply filter_nil_iff.mpr
          intro x hx
          simp [hq x hx]
        · exact hproc
      · intro id hph
        obtain ⟨hall, hproc⟩ := hrunInv id hph
        constructor
        · intro x hx hxs
          simp only [addToQueue, List.mem_append] at hx
          rcases hx with hx | hx
          · exact hall x hx hxs
          · rw [hq x hx] at hxs; cases hxs
        · exact hproc
  | retry =>
      refine ⟨?_, ?_, ?_⟩
      · rw [show (retryFailedState s).queue = s.queue.map retryItem from rfl]
        rw [ids_map_update retryItem_id]
        exact hids
      · intro hph
        obtain ⟨hcount, hproc⟩ := hidleInv hph
        refine ⟨?_, hproc⟩
        unfold countProcessing
        rw [List.length_eq_zero]
        apply filter_nil_iff.mpr
        intro x hx
        simp only [retryFailedState, List.mem_map] at hx
        obtain ⟨y, hy, rfl⟩ := hx
        rw [retryItem_processing]
        exact filter_nil_iff.mp (List.length_eq_zero.mp hcount) y hy
      · intro id hph
        obtain ⟨hall, hproc⟩ := hrunInv id hph
        refine ⟨?_, hproc⟩
        intro x hx hxs
        simp only [retryFailedState, List.mem_map] at hx
        obtain ⟨y, hy, rfl⟩ := hx
        have hb : ((retryItem y).status == Status.processing) = true := by simp [hxs]
        rw [retryItem_processing] at hb
        rw [retryItem_id]
        exact hall y hy (by simpa using hb)
  | clearCompleted =>
      refine ⟨?_, ?_, ?_⟩
      · exact ((List.filter_sublist _).map (fun i : Item => i.id)).nodup hids
      · intro hph
        obtain ⟨hcount, hproc⟩ := hidleInv hph
        refine ⟨?_, hproc⟩
        unfold countProcessing
        rw [List.length_eq_zero]
        apply filter_nil_iff.mpr
        intro x hx
        exact filter_nil_iff.mp (List.length_eq_zero.mp hcount) x (List.mem_of_mem_filter hx)
      · intro id hph
        obtain ⟨hall, hproc⟩ := hrunInv id hph
        exact ⟨fun x hx hxs => hall x (List.mem_of_mem_filter hx) hxs, hproc⟩
  | clearFailed =>
      refine ⟨?_, ?_, ?_⟩
      · exact ((List.filter_sublist _).map (fun i : Item => i.id)).nodup hids
      · intro hph
        obtain ⟨hcount, hproc⟩ := hidleInv hph
        refine ⟨?_, hproc⟩
        unfold countProcessing
        rw [List.length_eq_zero]
        apply filter_nil_iff.mpr
        intro x hx
        exact filter_nil_iff.mp (List.length_eq_zero.mp hcount) x (List.mem_of_mem_filter hx)
      · intro id hph
        obtain ⟨hall, hproc⟩ := hrunInv id hph
        exact ⟨fun x hx hxs => hall x (List.mem_of_mem_filter hx) hxs, hproc⟩
  | removeCompleted id it hfind hcompleted =>
      refine ⟨?_, ?_, ?_⟩
      · exact ((List.filter_sublist _).map (fun i : Item => i.id)).nodup hids
      · intro hph
        obtain ⟨hcount, hproc⟩ := hidleInv hph
        refine ⟨?_, hproc⟩
        unfold countProcessing
        rw [List.length_eq_zero]
        apply filter_nil_iff.mpr
        intro x hx
        exact filter_nil_iff.mp (List.length_eq_zero.mp hcount) x (List.mem_of_mem_filter hx)
      · intro id' hph
        obtain ⟨hall, hproc⟩ := hrunInv id' hph
        exact ⟨fun x hx hxs => hall x (List.mem_of_mem_filter hx) hxs, hproc⟩
  | storeWrite a v =>
      exact ⟨hids, hidleInv, hrunInv⟩

theorem good_reachable {s : State} (h : Reachable s) : Good s := by
  induction h with
  | refl => exact good_init
  | tail _ hstep ih => exact good_step ih hstep

/-- Auxiliary: the invariant bounds the number of `processing` items by one. -/
theorem good_count_le_one {s : State} (hg : Good s) : countProcessing s ≤ 1 := by
  obtain ⟨hids, hidleInv, hrunInv⟩ := hg
  cases hp : s.phase with
  | idle =>
      rw [(hidleInv hp).1]
      exact Nat.zero_le 1
  | running id =>
      obtain ⟨hall, _⟩ := hrunInv id hp
      unfold countProcessing
      have hsub : ((s.queue.filter (fun i => i.status == Status.processing)).map
          (fun i : Item => i.id)).Nodup :=
        ((List.filter_sublist _).map (fun i : Item => i.id)).nodup hids
      apply len_le_one_of_all_eq hsub
      intro x hx
      have hmem := List.mem_of_mem_filter hx
      have hpx := List.of_mem_filter hx
      simp at hpx
      exact hall x hmem hpx

end QueueMgr

namespace QueueMgr

/-- Concrete uuid supply used by the reachability witnesses. -/
def uuidsW : Nat → String := fun n => toString n

/-- State after `addToQueue(["B1"], 0)` on a fresh manager. -/
def stateW1 : State := addToQueue initState ["B1"] 0 0 uuidsW

/-- The product item enqueued for ASIN B1. -/
def itemW : Item := mkItem "product_" "0" "B1" 0 0

/-- State after the first `processQueue` tick promotes the product item. -/
def stateW2 : State := startItem stateW1 itemW

theorem reachable_stateW2 : Reachable stateW2 :=
  Relation.ReflTransGen.tail
    (Relation.ReflTransGen.tail Relation.ReflTransGen.refl
      (Step.add initState ["B1"] 0 0 uuidsW (by unfold freshIds; decide)))
    (Step.promote stateW1 itemW rfl (by decide) (by decide))

/-- Claim C1: at every reachable point of the queue manager, the number of
queue items with status `processing` is at most `maxConcurrent` (default 3):
promotion is guarded by the concurrency check and a promoted item leaves
`processing` only through `completed` or `failed`. -/
theorem processing_never_exceeds_maxConcurrent (s : State) (h : Reachable s) :
    countProcessing s ≤ maxConcurrent :=
  Nat.le_trans (good_count_le_one (good_reachable h)) (by decide)

/-- Witness for C1 at a reachable state with one in-flight item. -/
theorem processing_never_exceeds_maxConcurrent_witness :
    Reachable stateW2 ∧ countProcessing stateW2 ≤ maxConcurrent :=
  ⟨reachable_stateW2, processing_never_exceeds_maxConcurrent stateW2 reachable_stateW2⟩

/-- Claim C9: at every reachable point of the queue manager, at most one
queue item has status `processing`: `processQueue` awaits `processItem`
through to a terminal state before scanning again, so effective concurrency
is 1 regardless of `maxConcurrent`. -/
theorem processing_at_most_one (s : State) (h : Reachable s) :
    countProcessing s ≤ 1 :=
  good_count_le_one (good_reachable h)

/-- Witness for C9 at a reachable state with one in-flight item. -/
theorem processing_at_most_one_witness :
    Reachable stateW2 ∧ countProcessing stateW2 ≤ 1 :=
  ⟨reachable_stateW2, processing_at_most_one stateW2 reachable_stateW2⟩

/-- Claim C2: an item whose attempts have reached `maxRetries` is never
selected by the scheduling loop, and `retryFailed` moves a failed item back
to `queued` with its error cleared exactly when its attempts are still
strictly below `maxRetries`, leaving exhausted items untouched. -/
theorem maxRetries_guards_selection_and_retry :
    (∀ (s : State) (it : Item), maxRetries ≤ it.attempts → selectNext s ≠ some it) ∧
    (∀ it : Item, it.status = Status.failed → it.attempts < maxRetries →
      (retryItem it).status = Status.queued ∧ (retryItem it).error = none) ∧
    (∀ it : Item, maxRetries ≤ it.attempts → retryItem it = it) := by
  refine ⟨?_, ?_, ?_⟩
  · intro s it hge heq
    have hp := List.find?_some heq
    simp [eligible, maxRetries] at hp
    simp [maxRetries] at hge
    omega
  · intro it hf hlt
    simp [retryItem, hf, hlt]
  · intro it hge
    have hno : ¬(it.status = Status.failed ∧ it.attempts < maxRetries) := by
      rintro ⟨-, hlt⟩
      simp [maxRetries] at hge hlt
      omega
    simp [retryItem, hno]

/-- Exhausted queue item used by the C2 witness. -/
def itemExhausted : Item :=
  { id := "x1", asin := "B2", priority := 0, status := Status.queued, error := none,
    progress := 0, attempts := 3, queuedAt := 0 }

/-- One-element queue state containing the exhausted item. -/
def stateExhausted : State :=
  { queue := [itemExhausted], processing := [], phase := Phase.idle, store := fun _ => none }

/-- Failed-but-retryable queue item used by the C2 witness. -/
def itemFailedOnce : Item :=
  { id := "x2", asin := "B3", priority := 0, status := Status.failed, error := some "boom",
    progress := 0, attempts := 1, queuedAt := 0 }

/-- Witness for C2 at concrete items. -/
theorem maxRetries_guards_selection_and_retry_witness :
    (maxRetries ≤ itemExhausted.attempts ∧ selectNext stateExhausted ≠ some itemExhausted) ∧
    (itemFailedOnce.status = Status.failed ∧ itemFailedOnce.attempts < maxRetries ∧
      (retryItem itemFailedOnce).status = Status.queued ∧
      (retryItem itemFailedOnce).error = none) ∧
    retryItem itemExhausted = itemExhausted :=
  ⟨⟨by decide,
    maxRetries_guards_selection_and_retry.1 stateExhausted itemExhausted (by decide)⟩,
   ⟨rfl, by decide,
    (maxRetries_guards_selection_and_retry.2.1 itemFailedOnce rfl (by decide)).1,
    (maxRetries_guards_selection_and_retry.2.1 itemFailedOnce rfl (by decide)).2⟩,
   maxRetries_guards_selection_and_retry.2.2 itemExhausted (by decide)⟩

end QueueMgr

namespace QueueMgr

/-- Auxiliary: `addToQueue` creates two items per ASIN. -/
theorem addItems_length (uuids : Nat → String) (k : Nat) (asins : List String)
    (priority : Int) (now : Nat) :
    (addItems uuids k asins priority now).length = 2 * asins.length := by
  induction asins generalizing k with
  | nil => rfl
  | cons a rest ih =>
      simp only [addItems, List.length_cons, ih (k + 2), List.length_cons]
      ring

/-- Auxiliary: `addItems` contains no item for an ASIN that was not passed. -/
theorem addItems_filter_not_mem (uuids : Nat → String) (k : Nat) (asins : List String)
    (priority : Int) (now : Nat) (a : String) (ha : a ∉ asins) :
    (addItems uuids k asins priority now).filter (fun it => it.asin == a) = [] := by
  induction asins generalizing k with
  | nil => rfl
  | cons b rest ih =>
      have hb : b ≠ a := fun h => ha (by simp [h])
      have ha' : a ∉ rest := fun h => ha (by simp [h])
      simp only [addItems, List.filter_cons]
      have h1 : ((mkItem "product_" (uuids k) b priority now).asin == a) = false := by
        simp [mkItem, hb]
      have h2 : ((mkItem "review_" (uuids (k + 1)) b priority now).asin == a) = false := by
        simp [mkItem, hb]
      rw [h1, h2]
      simp only [Bool.false_eq_true, if_false]
      exact ih (k + 2) ha'

/-- Auxiliary: for a listed ASIN the created items are exactly one
product-scrape and one review-scrape item with the caller's data. -/
theorem addItems_filter_mem (uuids : Nat → String) (k : Nat) (asins : List String)
    (priority : Int) (now : Nat) (a : String) (hnd : asins.Nodup) (ha : a ∈ asins) :
    ∃ j, (addItems uuids k asins priority now).filter (fun it => it.asin == a) =
      [mkItem "product_" (uuids j) a priority now,
       mkItem "review_" (uuids (j + 1)) a priority now] := by
  induction asins generalizing k with
  | nil => cases ha
  | cons b rest ih =>
      rcases List.mem_cons.mp ha with rfl | hmem
      · refine ⟨k, ?_⟩
        have hrest : a ∉ rest := (List.nodup_cons.mp hnd).1
        simp only [addItems, List.filter_cons]
        have h1 : ((mkItem "product_" (uuids k) a priority now).asin == a) = true := by
          simp [mkItem]
        have h2 : ((mkItem "review_" (uuids (k + 1)) a priority now).asin == a) = true := by
          simp [mkItem]
        rw [h1, h2]
        simp [addItems_filter_not_mem uuids (k + 2) rest priority now a hrest]
      · have hb : b ≠ a := fun h => (List.nodup_cons.mp hnd).1 (h ▸ hmem)
        obtain ⟨j, hj⟩ := ih (k + 2) (List.nodup_cons.mp hnd).2 hmem
        refine ⟨j, ?_⟩
        simp only [addItems, List.filter_cons]
        have h1 : ((mkItem "product_" (uuids k) b priority now).asin == a) = false := by
          simp [mkItem, hb]
        have h2 : ((mkItem "review_" (uuids (k + 1)) b priority now).asin == a) = false := by
          simp [mkItem, hb]
        rw [h1, h2]
        simp only [Bool.false_eq_true, if_false]
        exact hj

/-- Auxiliary: every created item starts queued with zeroed counters and the
caller's priority and enqueue time. -/
theorem addItems_fields (uuids : Nat → String) (k : Nat) (asins : List String)
    (priority : Int) (now : Nat) :
    ∀ x ∈ addItems uuids k asins priority now,
      x.status = Status.queued ∧ x.progress = 0 ∧ x.attempts = 0 ∧
      x.priority = priority ∧ x.queuedAt = now := by
  induction asins generalizing k with
  | nil => intro x hx; simp [addItems] at hx
  | cons a rest ih =>
      intro x hx
      simp only [addItems, List.mem_cons] at hx
      rcases hx with h | h | h
      · subst h; exact ⟨rfl, rfl, rfl, rfl, rfl⟩
      · subst h; exact ⟨rfl, rfl, rfl, rfl, rfl⟩
      · exact ih (k + 2) x h

/-- Auxiliary: the store writes of `addToQueue` do not touch other ASINs. -/
theorem queueStatuses_not_mem (asins : List String) (st : String → Option String)
    (a : String) (ha : a ∉ asins) : queueStatuses asins st a = st a := by
  induction asins generalizing st with
  | nil => rfl
  | cons b rest ih =>
      have hb : a ≠ b := fun h => ha (by simp [h])
      have ha' : a ∉ rest := fun h => ha (by simp [h])
      show queueStatuses rest (storeSet st b "queued") a = st a
      rw [ih (storeSet st b "queued") ha']
      simp [storeSet, hb]

/-- Auxiliary: the store writes of `addToQueue` set every existing listed
product row to `queued`. -/
theorem queueStatuses_mem (asins : List String) (st : String → Option String)
    (a : String) (ha : a ∈ asins) (hs : (st a).isSome) :
    queueStatuses asins st a = some "queued" := by
  induction asins generalizing st with
  | nil => cases ha
  | cons b rest ih =>
      show queueStatuses rest (storeSet st b "queued") a = some "queued"
      by_cases hab : a = b
      · subst hab
        have hset : storeSet st a "queued" a = some "queued" := by
          obtain ⟨v, hv⟩ := Option.isSome_iff_exists.mp hs
          simp [storeSet, hv]
        by_cases hrest : a ∈ rest
        · exact ih (storeSet st a "queued") hrest (by rw [hset]; rfl)
        · rw [queueStatuses_not_mem rest (storeSet st a "queued") a hrest]
          exact hset
      · have hrest : a ∈ rest := by
          rcases List.mem_cons.mp ha with h | h
          · exact absurd h hab
          · exact h
        have hkeep : storeSet st b "queued" a = st a := by simp [storeSet, hab]
        exact ih (storeSet st b "queued") hrest (by rw [hkeep]; exact hs)

/-- Claim C10: one `addToQueue` call appends, for every listed ASIN, exactly
one product-scrape and one review-scrape queue item, each with the caller's
priority, status `queued`, progress 0 and attempts 0, and sets each existing
product row's store status to `queued`. -/
theorem addToQueue_enqueues_pair_per_asin
    (s : State) (asins : List String) (priority : Int) (now : Nat) (uuids : Nat → String)
    (hnd : asins.Nodup) :
    (addToQueue s asins priority now uuids).queue =
      s.queue ++ addItems uuids 0 asins priority now ∧
    (addItems uuids 0 asins priority now).length = 2 * asins.length ∧
    (∀ a ∈ asins, ∃ j,
      (addItems uuids 0 asins priority now).filter (fun it => it.asin == a) =
        [mkItem "product_" (uuids j) a priority now,
         mkItem "review_" (uuids (j + 1)) a priority now]) ∧
    (∀ x ∈ addItems uuids 0 asins priority now,
      x.status = Status.queued ∧ x.progress = 0 ∧ x.attempts = 0 ∧ x.priority = priority) ∧
    (∀ a, (a ∈ asins → (s.store a).isSome →
        (addToQueue s asins priority now uuids).store a = some "queued") ∧
      (a ∉ asins → (addToQueue s asins priority now uuids).store a = s.store a)) := by
  refine ⟨rfl, addItems_length uuids 0 asins priority now, ?_, ?_, ?_⟩
  · intro a ha
    exact addItems_filter_mem uuids 0 asins priority now a hnd ha
  · intro x hx
    obtain ⟨h1, h2, h3, h4, _⟩ := addItems_fields uuids 0 asins priority now x hx
    exact ⟨h1, h2, h3, h4⟩
  · intro a
    constructor
    · intro ha hs
      exact queueStatuses_mem asins s.store a ha hs
    · intro ha
      exact queueStatuses_not_mem asins s.store a ha

/-- Starting state with one existing product row, used by the C10 witness. -/
def stateStoreW : State :=
  { queue := [], processing := [], phase := Phase.idle,
    store := fun a => if a = "A1" then some "active" else none }

/-- Witness for C10 at a concrete call. -/
theorem addToQueue_enqueues_pair_per_asin_witness :
    (["A1"] : List String).Nodup ∧
    (∃ j, (addItems uuidsW 0 ["A1"] 5 7).filter (fun it => it.asin == "A1") =
      [mkItem "product_" (uuidsW j) "A1" 5 7, mkItem "review_" (uuidsW (j + 1)) "A1" 5 7]) ∧
    (addToQueue stateStoreW ["A1"] 5 7 uuidsW).store "A1" = some "queued" :=
  ⟨by decide,
   (addToQueue_enqueues_pair_per_asin stateStoreW ["A1"] 5 7 uuidsW (by decide)).2.2.1 "A1"
     (by simp),
   ((addToQueue_enqueues_pair_per_asin stateStoreW ["A1"] 5 7 uuidsW (by decide)).2.2.2.2
     "A1").1 (by simp) (by decide)⟩

end QueueMgr

namespace Violations

/-- One row of the `review_violations` table (columns used by the override
and counting logic; `overridden` defaults to false on insert). -/
structure ViolationRow where
  review_id : String
  product_id : String
  overridden : Bool
  overridden_by : Option String
  overridden_at : Option String
deriving DecidableEq, Repr

/-- The SQL helper `count_product_violations(p_product_id)` from migration
`20250127172122_ancient_leaf.sql`: rows of the product whose `overridden`
flag is not set. -/
def count_product_violations (p : String) (db : List ViolationRow) : Nat :=
  (db.filter (fun r => r.product_id == p && !r.overridden)).length

/-- Client-side violation record of the `ViolationScanner` component
(interface `ReviewViolation`). -/
structure ReviewViolation where
  reviewId : String
  scannedAt : String
  overridden : Bool
  overriddenBy : Option String
  overriddenAt : Option String
deriving DecidableEq, Repr

/-- The Override button handler: the record keyed by the review id gets
`overridden := true` with identity `Admin` and the current timestamp; the
spread keeps every other record and never deletes any. -/
def overrideViolation (rid : String) (now : String)
    (ui : List (String × ReviewViolation)) : List (String × ReviewViolation) :=
  ui.map (fun kv =>
    if kv.1 = rid then
      (kv.1,
        { kv.2 with
            overridden := true
            overriddenBy := some "Admin"
            overriddenAt := some now })
    else kv)

/-- Combined system state: the persisted `review_violations` table and the
component state. -/
structure SysState where
  db : List ViolationRow
  ui : List (String × ReviewViolation)

/-- The override click as executed by the component: it calls
`setViolations` on the updated record map and issues no database write. -/
def overrideStep (s : SysState) (rid : String) (now : String) : SysState :=
  { db := s.db, ui := overrideViolation rid now s.ui }

end Violations

namespace Scan

/-- HTTP response as observed by one classifier attempt. -/
structure HttpResponse where
  ok : Bool
  status : Nat
  body : String
deriving DecidableEq, Repr

/-- Truthiness of an optional JS string: `undefined` and the empty string
are falsy. -/
def jsTruthy : Option String → Bool
  | none => false
  | some s => !(s == "")

/-- JS `a || b` on optional strings: the first operand when truthy,
otherwise the second. -/
def jsOr (a b : Option String) : Option String :=
  if jsTruthy a then a else b

/-- JS `a || b` on optional booleans. -/
def jsOrB (a b : Option Bool) : Option Bool :=
  if a = some true then a else b

/-- Whitespace as removed by the JS `trim()` calls of the scanner. -/
def isWhitespaceChar (c : Char) : Bool :=
  c == ' ' || c == '\t' || c == '\n' || c == '\r'

/-- JS `String.prototype.trim`: leading and trailing whitespace removed. -/
def jsTrim (s : String) : String :=
  String.mk (((s.data.dropWhile isWhitespaceChar).reverse.dropWhile
    isWhitespaceChar).reverse)

/-- One classifier attempt (`fetch`, HTTP status check, empty-body check,
JSON parse): a non-2xx status, an empty (after trim) body, and a parse
failure each produce a retryable error; `parse` stands for `JSON.parse`
plus the response-shape checks. -/
def classifyAttempt {V : Type} (parse : String → Option V) (resp : HttpResponse) :
    Except String V :=
  if resp.ok = false then Except.error ("HTTP " ++ toString resp.status)
  else if jsTrim resp.body == "" then Except.error "Empty response"
  else
    match parse resp.body with
    | none => Except.error "Parse error"
    | some v => Except.ok v

/-- Outcome of the retry loop: the final result, the total number of
attempts executed, and the list of backoff delays slept (in order). -/
structure RetryTrace (V : Type) where
  result : Except String V
  attempts : Nat
  delays : List Nat
deriving Repr

/-- The body of the `while (attempts < maxAttempts)` retry loop: on failure
the counter is incremented, the last error is thrown when it reaches
`maxAttempts`, and otherwise the loop sleeps `baseDelay * 2 ^ (attempts - 1)`
before the next attempt.  The fuel argument is `maxAttempts - attempts`. -/
def retryAux {V : Type} (att : Nat → Except String V) (baseDelay maxAttempts : Nat) :
    Nat → Nat → RetryTrace V
  | 0, n => ⟨Except.error "", n, []⟩
  | fuel + 1, n =>
    match att n with
    | Except.ok v => ⟨Except.ok v, n + 1, []⟩
    | Except.error e =>
      if n + 1 = maxAttempts then ⟨Except.error e, n + 1, []⟩
      else
        let rest := retryAux att baseDelay maxAttempts fuel (n + 1)
        ⟨rest.result, rest.attempts, baseDelay * 2 ^ (n + 1 - 1) :: rest.delays⟩

/-- The whole retry loop started at `attempts = 0`. -/
def retryLoop {V : Type} (att : Nat → Except String V) (baseDelay maxAttempts : Nat) :
    RetryTrace V :=
  retryAux att baseDelay maxAttempts maxAttempts 0

/-- The retry loop as instantiated in `processReviews`/`processReview`:
`maxAttempts = 3`, `baseDelay = 1000` ms. -/
def processReviewsTrace {V : Type} (att : Nat → Except String V) : RetryTrace V :=
  retryLoop att 1000 3

/-- The `processReviews` wrapper: the outer `catch` logs the thrown last
error and returns `null` instead of re-throwing it. -/
def processReviewsResult {V : Type} (att : Nat → Except String V) : Option V :=
  match (processReviewsTrace att).result with
  | Except.ok v => some v
  | Except.error _ => none

/-- A raw review as passed to the scanner (fields referenced by the
validation and request construction; absent JS fields are `none`). -/
structure Review where
  review_id : Option String
  content : Option String
  text : Option String
  rating : Option Int
  review_date : Option String
  date : Option String
  author : Option String
  verified_purchase : Option Bool
  verified : Option Bool
  product_id : Option String
  title : Option String
  helpful_votes : Option Nat
  total_votes : Option Nat
  variant : Option String
deriving DecidableEq, Repr

/-- The validation of `processReviews`/`processReview`: a review is dropped
when its id is missing, both body fields are missing, or the effective body
text trims to the empty string. -/
def isValidReview (r : Review) : Bool :=
  if !(jsTruthy r.review_id) || (!(jsTruthy r.content) && !(jsTruthy r.text)) then false
  else !(jsTrim ((jsOr r.content r.text).getD "") == "")

/-- The normalized review payload submitted to the classifier webhook. -/
structure ReviewData where
  id : String
  content : String
  rating : Option Int
  date : Option String
  author : Option String
  verified : Option Bool
  product_id : Option String
  title : Option String
  helpful_votes : Nat
  total_votes : Nat
  variant : Option String
deriving DecidableEq, Repr

/-- The request construction of `processReviews` (field-by-field from the
raw review, with `|| 0` vote defaults and `||`-chained fallbacks). -/
def mkReviewData (r : Review) : ReviewData :=
  { id := r.review_id.getD ""
    content := (jsOr r.content r.text).getD ""
    rating := r.rating
    date := jsOr r.review_date r.date
    author := r.author
    verified := jsOrB r.verified_purchase r.verified
    product_id := r.product_id
    title := r.title
    helpful_votes := r.helpful_votes.getD 0
    total_votes := r.total_votes.getD 0
    variant := r.variant }

/-- The `validReviews` filter of `processReviews`. -/
def validReviews (rs : List Review) : List Review :=
  rs.filter isValidReview

/-- The `reviewsData` array of `processReviews`: the submitted request body. -/
def reviewsData (rs : List Review) : List ReviewData :=
  (validReviews rs).map mkReviewData

/-- A per-review classifier result (`reviewId` plus violations payload). -/
structure ReviewResult (V : Type) where
  reviewId : String
  violations : V
deriving DecidableEq, Repr

/-- The per-review `processReview` of the batched scanner variant: invalid
reviews return `null` before any submission; otherwise the retry loop runs
and its thrown error is converted to `null` by the outer catch. -/
def processReview {V : Type} (att : Nat → Except String V) (r : Review) :
    Option (ReviewResult V) :=
  if isValidReview r = false then none
  else
    match (retryLoop att 1000 3).result with
    | Except.ok v => some ⟨r.review_id.getD "", v⟩
    | Except.error _ => none

/-- The `allViolations` record map assembled by the batched scanner: every
review with a truthy id is processed and each non-null result is stored
under its `reviewId` key. -/
def scanViolations007 {V : Type} (att : Nat → Except String V) (reviews : List Review) :
    String → Option (ReviewResult V) :=
  (reviews.filter (fun r => jsTruthy r.review_id)).foldl
    (fun acc r =>
      match processReview att r with
      | some res => fun k => if k = res.reviewId then some res else acc k
      | none => acc)
    (fun _ => none)

/-- User-visible outcome of one `scanReviews` run. -/
inductive ScanOutcome where
  | configError
  | stopped
  | completed
  | failed (msg : String)
deriving DecidableEq, Repr

/-- Result of one `scanReviews` run: the outcome, the `review_violations`
table after the run, and whether the classifier was called at all. -/
structure ScanRun where
  outcome : ScanOutcome
  store : List Violations.ViolationRow
  submitted : Bool
deriving Repr

/-- The `scanReviews` control flow of the single-request scanner: the
missing-webhook guard, then the `shouldStop` check before any submission,
then one `processReviews` call whose `null` result raises the
invalid-response error; each returned violation is inserted into
`review_violations` (with `overridden` defaulting to false) before the
empty-result check. -/
def scanReviewsRun {V : Type} (webhookConfigured shouldStop : Bool)
    (att : Nat → Except String (List (ReviewResult V)))
    (productId : String) (store : List Violations.ViolationRow) : ScanRun :=
  if webhookConfigured = false then ⟨ScanOutcome.configError, store, false⟩
  else if shouldStop then ⟨ScanOutcome.stopped, store, false⟩
  else
    match processReviewsResult att with
    | none =>
        ⟨ScanOutcome.failed "Invalid response format from violation detection service",
         store, true⟩
    | some results =>
        let store2 := results.foldl
          (fun st r => st ++
            [{ review_id := r.reviewId
               product_id := productId
               overridden := false
               overridden_by := none
               overridden_at := none }]) store
        if results.length = 0 then
          ⟨ScanOutcome.failed "No results returned from violation detection service",
           store2, true⟩
        else ⟨ScanOutcome.completed, store2, true⟩

end Scan

namespace Scan

/-- Claim C3 (amended): when the first three classifier attempts all fail
(non-2xx status, empty body or parse failure), exactly 3 attempts are made,
the backoff delays are `baseDelay * 2 ^ (n - 1)` for retries n = 1, 2, and
the retry loop throws the last error; but `processReviews` catches it and
returns null, so the scan reports the generic invalid-response-format
failure instead of the last error. -/
theorem classifier_retry_three_attempts_backoff {W : Type}
    (parse : String → Option (List (ReviewResult W))) (resps : Nat → HttpResponse)
    (e0 e1 e2 : String)
    (h0 : classifyAttempt parse (resps 0) = Except.error e0)
    (h1 : classifyAttempt parse (resps 1) = Except.error e1)
    (h2 : classifyAttempt parse (resps 2) = Except.error e2)
    (productId : String) (store : List Violations.ViolationRow) :
    (processReviewsTrace (fun n => classifyAttempt parse (resps n))).attempts = 3 ∧
    (processReviewsTrace (fun n => classifyAttempt parse (resps n))).delays =
      [1000 * 2 ^ 0, 1000 * 2 ^ 1] ∧
    (processReviewsTrace (fun n => classifyAttempt parse (resps n))).result =
      Except.error e2 ∧
    processReviewsResult (fun n => classifyAttempt parse (resps n)) = none ∧
    (scanReviewsRun true false (fun n => classifyAttempt parse (resps n)) productId
        store).outcome =
      ScanOutcome.failed "Invalid response format from violation detection service" := by
  have ht : processReviewsTrace (fun n => classifyAttempt parse (resps n)) =
      ⟨Except.error e2, 3, [1000 * 2 ^ 0, 1000 * 2 ^ 1]⟩ := by
    unfold processReviewsTrace retryLoop
    simp [retryAux, h0, h1, h2]
  have hr : processReviewsResult (fun n => classifyAttempt parse (resps n)) = none := by
    unfold processReviewsResult
    rw [ht]
  refine ⟨by rw [ht], by rw [ht], by rw [ht], hr, ?_⟩
  unfold scanReviewsRun
  rw [hr]
  rfl

/-- Always-failing responses used by the C3 witness and counterexample. -/
def resps0W : Nat → HttpResponse := fun _ => ⟨false, 500, ""⟩

/-- Parse oracle that never succeeds, used by the C3 witness. -/
def parse0W : String → Option (List (ReviewResult Nat)) := fun _ => none

/-- The attempt sequence induced by `resps0W` and `parse0W`. -/
def attC3W : Nat → Except String (List (ReviewResult Nat)) :=
  fun n => classifyAttempt parse0W (resps0W n)

/-- Witness for C3 with a classifier that always answers HTTP 500. -/
theorem classifier_retry_three_attempts_backoff_witness :
    (classifyAttempt parse0W (resps0W 0) = Except.error "HTTP 500" ∧
     classifyAttempt parse0W (resps0W 1) = Except.error "HTTP 500" ∧
     classifyAttempt parse0W (resps0W 2) = Except.error "HTTP 500") ∧
    ((processReviewsTrace attC3W).attempts = 3 ∧
     (processReviewsTrace attC3W).delays = [1000 * 2 ^ 0, 1000 * 2 ^ 1] ∧
     (processReviewsTrace attC3W).result = Except.error "HTTP 500" ∧
     processReviewsResult attC3W = none ∧
     (scanReviewsRun true false attC3W "P1" []).outcome =
       ScanOutcome.failed "Invalid response format from violation detection service") :=
  ⟨⟨rfl, rfl, rfl⟩,
   classifier_retry_three_attempts_backoff parse0W resps0W "HTTP 500" "HTTP 500"
     "HTTP 500" rfl rfl rfl "P1" []⟩

/-- Counterexample for C3 as stated: after three failures whose last error
is `HTTP 500`, the scan outcome is the generic invalid-response-format
failure, not the last error. -/
theorem classifier_last_error_swallowed :
    (processReviewsTrace attC3W).result = Except.error "HTTP 500" ∧
    (scanReviewsRun true false attC3W "P1" []).outcome =
      ScanOutcome.failed "Invalid response format from violation detection service" ∧
    ¬((scanReviewsRun true false attC3W "P1" []).outcome =
      ScanOutcome.failed "HTTP 500") := by
  refine ⟨rfl, rfl, by decide⟩

/-- Claim C5: with the webhook configured and the stop flag set at the
pre-submission check, the scan is never submitted to the classifier, the
persisted violations table is left exactly as it was, and the reported
outcome is `stopped`. -/
theorem stop_flag_prevents_submission {V : Type}
    (att : Nat → Except String (List (ReviewResult V)))
    (productId : String) (store : List Violations.ViolationRow) :
    (scanReviewsRun true true att productId store).outcome = ScanOutcome.stopped ∧
    (scanReviewsRun true true att productId store).store = store ∧
    (scanReviewsRun true true att productId store).submitted = false :=
  ⟨rfl, rfl, rfl⟩

/-- Auxiliary: a non-null `processReview` result comes from a valid review
and is keyed by that review's id. -/
theorem processReview_some {V : Type} (att : Nat → Except String V) (r : Review)
    (res : ReviewResult V) (h : processReview att r = some res) :
    isValidReview r = true ∧ res.reviewId = r.review_id.getD "" := by
  unfold processReview at h
  by_cases hv : isValidReview r
  · refine ⟨hv, ?_⟩
    rw [if_neg (by simp [hv])] at h
    cases hres : (retryLoop att 1000 3).result with
    | ok v =>
        rw [hres] at h
        cases h
        rfl
    | error e =>
        rw [hres] at h
        cases h
  · rw [if_pos (by simpa using hv)] at h
    cases h

/-- Auxiliary: every key of the assembled violations map comes from a valid
review of the processed list. -/
theorem scanViolations007_fold_sound {V : Type} (att : Nat → Except String V)
    (l : List Review) (acc : String → Option (ReviewResult V)) (k : String)
    (res : ReviewResult V)
    (h : (l.foldl (fun acc r =>
        match processReview att r with
        | some res => fun k2 => if k2 = res.reviewId then some res else acc k2
        | none => acc) acc) k = some res) :
    acc k = some res ∨ ∃ r ∈ l, isValidReview r = true ∧ k = r.review_id.getD "" := by
  induction l generalizing acc with
  | nil => exact Or.inl h
  | cons r t ih =>
      rcases ih _ h with hacc | ⟨r2, hr2, hv, hk⟩
      · cases hpr : processReview att r with
        | none =>
            simp only [hpr] at hacc
            exact Or.inl hacc
        | some res2 =>
            simp only [hpr] at hacc
            by_cases hkk : k = res2.reviewId
            · right
              obtain ⟨hv, hid⟩ := processReview_some att r res2 hpr
              exact ⟨r, by simp, hv, by rw [hkk, hid]⟩
            · simp only [if_neg hkk] at hacc
              exact Or.inl hacc
      · exact Or.inr ⟨r2, List.mem_cons_of_mem r hr2, hv, hk⟩

/-- Claim C6: a review lacking an identifier or whose body text is empty or
whitespace-only is excluded from the classifier request (`reviewsData`) and
from the scan result set (`processReview` returns null and the violations
map holds keys of valid reviews only). -/
theorem invalid_reviews_excluded {V : Type} :
    (∀ (rs : List Review) (d : ReviewData), d ∈ reviewsData rs →
      ∃ r ∈ rs, isValidReview r = true ∧ d = mkReviewData r) ∧
    (∀ (att : Nat → Except String V) (r : Review), isValidReview r = false →
      processReview att r = none) ∧
    (∀ (att : Nat → Except String V) (rs : List Review) (k : String)
      (res : ReviewResult V), scanViolations007 att rs k = some res →
      ∃ r ∈ rs, isValidReview r = true ∧ k = r.review_id.getD "") := by
  refine ⟨?_, ?_, ?_⟩
  · intro rs d hd
    unfold reviewsData validReviews at hd
    rcases List.mem_map.mp hd with ⟨r, hr, rfl⟩
    exact ⟨r, List.mem_of_mem_filter hr, List.of_mem_filter hr, rfl⟩
  · intro att r h
    unfold processReview
    rw [if_pos h]
  · intro att rs k res h
    unfold scanViolations007 at h
    rcases scanViolations007_fold_sound att _ _ k res h with hl | ⟨r, hr, hv, hk⟩
    · cases hl
    · exact ⟨r, List.mem_of_mem_filter hr, hv, hk⟩

/-- Review without identifier, used by the C6 witness. -/
def badReviewW : Review :=
  { review_id := none, content := some "great", text := none, rating := none,
    review_date := none, date := none, author := none, verified_purchase := none,
    verified := none, product_id := none, title := none, helpful_votes := none,
    total_votes := none, variant := none }

/-- Valid review used by the C6 witness. -/
def goodReviewW : Review := { badReviewW with review_id := some "r1" }

/-- Always-succeeding classifier used by the C6 witness. -/
def attNatW : Nat → Except String Nat := fun _ => Except.ok 0

/-- Witness for C6 at a concrete invalid review and a concrete scan. -/
theorem invalid_reviews_excluded_witness :
    isValidReview badReviewW = false ∧
    processReview attNatW badReviewW = none ∧
    scanViolations007 attNatW [goodReviewW] "r1" = some ⟨"r1", 0⟩ ∧
    (∃ r ∈ [goodReviewW], isValidReview r = true ∧ "r1" = r.review_id.getD "") :=
  ⟨rfl, (invalid_reviews_excluded (V := Nat)).2.1 attNatW badReviewW rfl,
   rfl, (invalid_reviews_excluded (V := Nat)).2.2 attNatW [goodReviewW] "r1" ⟨"r1", 0⟩ rfl⟩

end Scan

namespace Violations

/-- Claim C8 (amended): the override handler records `overridden := true`
with identity `Admin` and the timestamp on the client-side record, retains
every record (nothing is deleted), and the `NOT overridden` filter of
`count_product_violations` excludes any row whose flag is set; but the
handler issues no database write, so the persisted table is unchanged. -/
theorem override_recorded_but_not_persisted
    (ui : List (String × ReviewViolation)) (db : List ViolationRow)
    (rid now p : String) :
    (overrideViolation rid now ui).length = ui.length ∧
    (∀ kv ∈ ui, kv.1 = rid →
      (rid, { kv.2 with overridden := true, overriddenBy := some "Admin", overriddenAt := some now }) ∈ overrideViolation rid now ui) ∧
    (∀ kv ∈ ui, kv.1 ≠ rid → kv ∈ overrideViolation rid now ui) ∧
    (overrideStep ⟨db, ui⟩ rid now).db = db ∧
    (∀ r : ViolationRow, r.overridden = true →
      count_product_violations p (r :: db) = count_product_violations p db) := by
  refine ⟨?_, ?_, ?_, rfl, ?_⟩
  · simp [overrideViolation]
  · intro kv hkv h1
    exact List.mem_map.mpr ⟨kv, hkv, by simp [h1]⟩
  · intro kv hkv h1
    exact List.mem_map.mpr ⟨kv, hkv, by simp [h1]⟩
  · intro r h
    simp [count_product_violations, List.filter_cons, h]

/-- Persisted violation row for review R1 of product P1. -/
def rowR1 : ViolationRow :=
  { review_id := "R1", product_id := "P1", overridden := false,
    overridden_by := none, overridden_at := none }

/-- Client-side record for review R1. -/
def uiR1 : ReviewViolation :=
  { reviewId := "R1", scannedAt := "2025-01-27", overridden := false,
    overriddenBy := none, overriddenAt := none }

/-- System state with one un-overridden finding for R1. -/
def sys0 : SysState := { db := [rowR1], ui := [("R1", uiR1)] }

/-- A row whose override flag is set, used by the C8 witness. -/
def rowOverridden : ViolationRow :=
  { review_id := "R2", product_id := "P1", overridden := true,
    overridden_by := some "Admin", overridden_at := some "T0" }

/-- Witness for C8 at the concrete state. -/
theorem override_recorded_but_not_persisted_witness :
    (("R1", uiR1) ∈ sys0.ui ∧ ("R1", uiR1).1 = "R1") ∧
    ("R1", { uiR1 with overridden := true, overriddenBy := some "Admin", overriddenAt := some "T1" }) ∈ overrideViolation "R1" "T1" sys0.ui ∧
    (rowOverridden.overridden = true ∧
      count_product_violations "P1" (rowOverridden :: sys0.db) =
        count_product_violations "P1" sys0.db) :=
  ⟨⟨by simp [sys0], rfl⟩,
   (override_recorded_but_not_persisted sys0.ui sys0.db "R1" "T1" "P1").2.1
     ("R1", uiR1) (by simp [sys0]) rfl,
   ⟨rfl, (override_recorded_but_not_persisted sys0.ui sys0.db "R1" "T1" "P1").2.2.2.2
     rowOverridden rfl⟩⟩

/-- Counterexample for C8 as stated: after the operator override of R1, the
persisted table is untouched, so `count_product_violations` still counts
the finding instead of excluding it. -/
theorem override_leaves_persisted_count_unchanged :
    count_product_violations "P1" sys0.db = 1 ∧
    (overrideStep sys0 "R1" "T1").db = sys0.db ∧
    count_product_violations "P1" ((overrideStep sys0 "R1" "T1").db) = 1 ∧
    ¬(count_product_violations "P1" ((overrideStep sys0 "R1" "T1").db) = 0) := by
  exact ⟨rfl, rfl, rfl, by decide⟩

end Violations

namespace Scraper

/-- A scraped review as it appears inside a product result (only the
`verified` flag is consumed by the summary computation). -/
structure ApifyReview where
  verified : Bool
deriving DecidableEq, Repr

/-- One `attributes` entry of a scraped product. -/
structure ApifyAttr where
  key : String
  value : String
deriving DecidableEq, Repr

/-- One `bestsellerRanks` entry (already number-normalized). -/
structure ApifyRank where
  category : String
  rank : Int
  url : String
deriving DecidableEq, Repr

/-- One `variantDetails` entry. -/
structure ApifyVariant where
  name : String
  asin : String
  price : Int
  images : List String
  thumbnail : String
deriving DecidableEq, Repr

/-- The `starsBreakdown` object of a scraped product. -/
structure StarsBreakdown where
  s5 : Int
  s4 : Int
  s3 : Int
  s2 : Int
  s1 : Int
deriving DecidableEq, Repr

/-- A scraped product as fetched from the external dataset (the fields read
by `processResults`; an empty `asin` models the missing/falsy case; numbers
are modelled as integers). -/
structure ApifyProduct where
  asin : String
  title : String
  brand : String
  price : Int
  currency : String
  images : List String
  thumbnailImage : Option String
  categories : List String
  features : List String
  description : String
  inStock : Bool
  inStockText : Option String
  starsBreakdown : Option StarsBreakdown
  reviewsCount : Int
  reviews : List ApifyReview
  attributes : List ApifyAttr
  bestsellerRanks : List ApifyRank
  variantDetails : List ApifyVariant
deriving DecidableEq, Repr

/-- The computed `reviewSummary` column. -/
structure ReviewSummary where
  rating : Int
  reviewCount : Int
  starsBreakdown : StarsBreakdown
  verifiedPurchases : Nat
  lastUpdated : Nat
deriving DecidableEq, Repr

/-- One row of the `products` table as upserted by `processResults`
(further JSON passthrough columns such as the A+ content and AI review
summary depend on the same product and timestamp only and behave exactly
like the passthrough fields listed here). -/
structure ProdRow where
  asin : String
  title : String
  brand : String
  price : Int
  currency : String
  images : List String
  categories : List String
  features : List String
  description : String
  availability : String
  specifications : List (String × String)
  dimensions : List (String × String)
  best_sellers_rank : List ApifyRank
  variations : List ApifyVariant
  attributes : List ApifyAttr
  last_scraped : Nat
  reviews : List ApifyReview
  review_summary : ReviewSummary
  status : String
  updated_at : Nat
deriving DecidableEq, Repr

/-- The average-rating computation over the stars breakdown. -/
def averageRating (p : ApifyProduct) : Int :=
  match p.starsBreakdown with
  | some b => b.s5 * 5 + b.s4 * 4 + b.s3 * 3 + b.s2 * 2 + b.s1 * 1
  | none => 0

/-- The `reviewSummary` construction of `processResults`. -/
def mkReviewSummary (p : ApifyProduct) (now : Nat) : ReviewSummary :=
  { rating := averageRating p
    reviewCount := p.reviewsCount
    starsBreakdown := p.starsBreakdown.getD ⟨0, 0, 0, 0, 0⟩
    verifiedPurchases := (p.reviews.filter (fun r => r.verified)).length
    lastUpdated := now }

/-- The `attributes.forEach` loop building `specifications` and extracting
the two dimension keys. -/
def specsFold (attrs : List ApifyAttr) :
    List (String × String) × List (String × String) :=
  attrs.foldl
    (fun acc a =>
      (acc.1 ++ [(a.key, a.value)],
       if a.key = "Product Dimensions" ∨ a.key = "Item Weight" then
         acc.2 ++ [(a.key, a.value)]
       else acc.2))
    ([], [])

/-- The image-list normalization: the thumbnail image is moved to the
front when present. -/
def imagesWithThumb (p : ApifyProduct) : List String :=
  match p.thumbnailImage with
  | some t => t :: p.images.filter (fun img => !(img == t))
  | none => p.images

/-- The `availability` computation (`inStockText || inStock ? ... : ...`,
with JS precedence grouping the `||` first). -/
def availabilityOf (p : ApifyProduct) : String :=
  if Scan.jsTruthy p.inStockText ∨ p.inStock then "In Stock" else "Out of Stock"

/-- The full row built by `processResults` for one scraped product,
parametrized by the wall-clock timestamp `now` used for `last_scraped`,
`updated_at` and the summary timestamps. -/
def mkRow (p : ApifyProduct) (now : Nat) : ProdRow :=
  { asin := p.asin
    title := p.title
    brand := p.brand
    price := p.price
    currency := p.currency
    images := imagesWithThumb p
    categories := p.categories
    features := p.features
    description := p.description
    availability := availabilityOf p
    specifications := (specsFold p.attributes).1
    dimensions := (specsFold p.attributes).2
    best_sellers_rank := p.bestsellerRanks
    variations := p.variantDetails
    attributes := p.attributes
    last_scraped := now
    reviews := p.reviews
    review_summary := mkReviewSummary p now
    status := "active"
    updated_at := now }

/-- Whether the table holds a row with the given ASIN. -/
def hasKey (a : String) (t : List ProdRow) : Bool :=
  t.any (fun x => x.asin == a)

/-- Lookup by ASIN (the unique-key view of the table). -/
def findRow (a : String) (t : List ProdRow) : Option ProdRow :=
  t.find? (fun x => x.asin == a)

/-- The supabase `upsert(..., { onConflict: 'asin' })`: the row with the
same ASIN is overwritten when present, otherwise the row is inserted. -/
def upsertRow (r : ProdRow) (t : List ProdRow) : List ProdRow :=
  if hasKey r.asin t then t.map (fun x => if x.asin == r.asin then r else x)
  else t ++ [r]

/-- One iteration of the `for (const product of results)` loop: a product
without an ASIN is skipped, every other product is upserted. -/
def ingestStep (now : Nat) (t : List ProdRow) (p : ApifyProduct) : List ProdRow :=
  if p.asin = "" then t else upsertRow (mkRow p now) t

/-- The whole result-ingestion loop of `processResults`. -/
def ingestResults (results : List ApifyProduct) (now : Nat) (t : List ProdRow) :
    List ProdRow :=
  results.foldl (ingestStep now) t

/-- ASINs of the result products that are actually written. -/
def validAsins (results : List ApifyProduct) : List String :=
  (results.filter (fun p => !(p.asin == ""))).map (fun p => p.asin)

/-- Pairwise-distinct ASINs: the uniqueness constraint of the `products`
table that the upsert targets. -/
def keysNodup (t : List ProdRow) : Prop :=
  (t.map (fun r => r.asin)).Nodup

/-- Lifecycle status of a `ScrapingTask`. -/
inductive TaskStatus where
  | pending
  | processing
  | completed
  | failed
deriving DecidableEq, Repr

/-- The in-memory `ScrapingTask` record (fields touched by
`processResults`). -/
structure ScrapingTask where
  status : TaskStatus
  error : Option String
  completedAt : Option Nat
deriving DecidableEq, Repr

/-- The raw value returned by the dataset fetch, before validation. -/
inductive FetchedResults where
  | arr (items : List ApifyProduct)
  | notArray
deriving DecidableEq, Repr

/-- The validation of the primary `processResults`
(`src/services/product-scraper.ts`): only `Array.isArray` is checked. -/
def validateResults : FetchedResults → Except String (List ApifyProduct)
  | FetchedResults.arr xs => Except.ok xs
  | FetchedResults.notArray => Except.error "Invalid results format from Apify"

/-- The validation of the variant `processResults` (the unnamed copy):
a non-array or an empty array is rejected. -/
def validateResultsAlt : FetchedResults → Except String (List ApifyProduct)
  | FetchedResults.arr xs =>
      if xs.length = 0 then Except.error "Invalid results format from Apify"
      else Except.ok xs
  | FetchedResults.notArray => Except.error "Invalid results format from Apify"

/-- The primary `processResults` at the task level: a validation error is
caught, recorded on the task and the task marked failed; otherwise the
results are ingested and `completedAt` is stamped (the status was already
`completed` when `monitorTask` called `processResults`). -/
def runProcessResults (fetched : FetchedResults) (now : Nat) (t : List ProdRow)
    (task : ScrapingTask) : List ProdRow × ScrapingTask :=
  match validateResults fetched with
  | Except.error e => (t, { task with status := TaskStatus.failed, error := some e })
  | Except.ok xs => (ingestResults xs now t, { task with completedAt := some now })

/-- The variant `processResults` at the task level (it also sets the status
to `completed` explicitly on success). -/
def runProcessResultsAlt (fetched : FetchedResults) (now : Nat) (t : List ProdRow)
    (task : ScrapingTask) : List ProdRow × ScrapingTask :=
  match validateResultsAlt fetched with
  | Except.error e => (t, { task with status := TaskStatus.failed, error := some e })
  | Except.ok xs =>
      (ingestResults xs now t,
       { task with status := TaskStatus.completed, completedAt := some now })

end Scraper

namespace Scraper

/-- Auxiliary: `find?` on a matching head. -/
theorem find_cons_pos {p : ProdRow → Bool} {x : ProdRow} (l : List ProdRow)
    (h : p x = true) : (x :: l).find? p = some x :=
  List.find?_cons_of_pos l h

/-- Auxiliary: `find?` skips a non-matching head. -/
theorem find_cons_neg {p : ProdRow → Bool} {x : ProdRow} (l : List ProdRow)
    (h : p x = false) : (x :: l).find? p = l.find? p :=
  List.find?_cons_of_neg l (by simp [h])

/-- Auxiliary: replacing the row that carries the key yields that row on
lookup. -/
theorem find_map_replace (r : ProdRow) (t : List ProdRow) (h : hasKey r.asin t = true) :
    (t.map (fun x => if x.asin == r.asin then r else x)).find?
      (fun x => x.asin == r.asin) = some r := by
  induction t with
  | nil => simp [hasKey] at h
  | cons x xs ih =>
      by_cases hx : x.asin == r.asin
      · rw [List.map_cons, if_pos hx]
        exact find_cons_pos _ (by simp)
      · rw [List.map_cons, if_neg hx]
        rw [find_cons_neg _ (by simpa using hx)]
        apply ih
        unfold hasKey at h ⊢
        rcases List.any_eq_true.mp h with ⟨y, hy, hpy⟩
        rcases List.mem_cons.mp hy with heq | hy2
        · exact absurd (heq ▸ hpy) (by simpa using hx)
        · exact List.any_eq_true.mpr ⟨y, hy2, hpy⟩

/-- Auxiliary: appending a fresh row makes it the lookup result for its key. -/
theorem find_append_singleton (r : ProdRow) (t : List ProdRow)
    (h : ∀ x ∈ t, (x.asin == r.asin) = false) :
    (t ++ [r]).find? (fun x => x.asin == r.asin) = some r := by
  induction t with
  | nil => exact find_cons_pos _ (by simp)
  | cons x xs ih =>
      rw [List.cons_append, find_cons_neg _ (h x (by simp))]
      exact ih (fun y hy => h y (by simp [hy]))

/-- Auxiliary: replacing the row of one key leaves lookups of other keys
unchanged. -/
theorem find_map_replace_other (a : String) (r : ProdRow) (t : List ProdRow)
    (h : a ≠ r.asin) :
    (t.map (fun x => if x.asin == r.asin then r else x)).find?
      (fun x => x.asin == a) = t.find? (fun x => x.asin == a) := by
  induction t with
  | nil => rfl
  | cons x xs ih =>
      by_cases hx : x.asin == r.asin
      · have hxr : x.asin = r.asin := by simpa using hx
        have hra : (r.asin == a) = false := beq_eq_false_iff_ne.mpr (fun hh => h hh.symm)
        have hxa : (x.asin == a) = false := by rw [hxr]; exact hra
        rw [List.map_cons, if_pos hx, find_cons_neg _ hra, find_cons_neg _ hxa]
        exact ih
      · rw [List.map_cons, if_neg hx]
        by_cases hxa : x.asin == a
        · rw [find_cons_pos _ hxa, find_cons_pos _ hxa]
        · rw [find_cons_neg _ (by simpa using hxa), find_cons_neg _ (by simpa using hxa)]
          exact ih

/-- Auxiliary: appending a row with a different key leaves a lookup
unchanged. -/
theorem find_append_other (a : String) (r : ProdRow) (t : List ProdRow)
    (h : a ≠ r.asin) :
    (t ++ [r]).find? (fun x => x.asin == a) = t.find? (fun x => x.asin == a) := by
  induction t with
  | nil =>
      rw [List.nil_append]
      have hra : (r.asin == a) = false := beq_eq_false_iff_ne.mpr (fun hh => h hh.symm)
      rw [find_cons_neg _ hra]
  | cons x xs ih =>
      by_cases hxa : x.asin == a
      · rw [List.cons_append, find_cons_pos _ hxa, find_cons_pos _ hxa]
      · rw [List.cons_append, find_cons_neg _ (by simpa using hxa),
            find_cons_neg _ (by simpa using hxa)]
        exact ih

/-- Auxiliary: after an upsert the row is present under its key. -/
theorem findRow_upsert_self (r : ProdRow) (t : List ProdRow) :
    findRow r.asin (upsertRow r t) = some r := by
  unfold upsertRow findRow
  by_cases hk : hasKey r.asin t
  · rw [if_pos hk]
    exact find_map_replace r t hk
  · rw [if_neg hk]
    apply find_append_singleton
    intro x hx
    by_contra hb
    simp only [Bool.not_eq_false] at hb
    exact hk (by unfold hasKey; exact List.any_eq_true.mpr ⟨x, hx, hb⟩)

/-- Auxiliary: an upsert does not touch rows of other keys. -/
theorem findRow_upsert_other (a : String) (r : ProdRow) (t : List ProdRow)
    (h : a ≠ r.asin) : findRow a (upsertRow r t) = findRow a t := by
  unfold upsertRow findRow
  by_cases hk : hasKey r.asin t
  · rw [if_pos hk]
    exact find_map_replace_other a r t h
  · rw [if_neg hk]
    exact find_append_other a r t h

/-- Auxiliary: an upsert of a present key does not change the key list. -/
theorem upsert_keys_present (r : ProdRow) (t : List ProdRow)
    (h : hasKey r.asin t = true) :
    (upsertRow r t).map (fun x => x.asin) = t.map (fun x => x.asin) := by
  unfold upsertRow
  rw [if_pos h, List.map_map]
  apply List.map_congr_left
  intro x hx
  by_cases hb : x.asin == r.asin
  · show (if x.asin == r.asin then r else x).asin = x.asin
    rw [if_pos hb]
    exact (by simpa using hb : x.asin = r.asin).symm
  · show (if x.asin == r.asin then r else x).asin = x.asin
    rw [if_neg hb]

/-- Auxiliary: the upsert preserves key uniqueness (no duplicate rows). -/
theorem upsert_keysNodup (r : ProdRow) (t : List ProdRow) (h : keysNodup t) :
    keysNodup (upsertRow r t) := by
  by_cases hk : hasKey r.asin t
  · unfold keysNodup
    rw [upsert_keys_present r t hk]
    exact h
  · unfold keysNodup upsertRow
    rw [if_neg hk, List.map_append]
    refine List.Nodup.append h (by simp) ?_
    intro a ha hb
    simp only [List.map_cons, List.map_nil, List.mem_singleton] at hb
    rcases List.mem_map.mp ha with ⟨x, hx, rfl⟩
    exact hk (by unfold hasKey; exact List.any_eq_true.mpr ⟨x, hx, by simp [hb]⟩)

/-- Auxiliary: under unique keys, two rows with the same ASIN coincide. -/
theorem keys_inj {t : List ProdRow} (hn : keysNodup t) {x y : ProdRow}
    (hx : x ∈ t) (hy : y ∈ t) (h : x.asin = y.asin) : x = y := by
  unfold keysNodup at hn
  exact List.inj_on_of_nodup_map hn hx hy h

/-- Auxiliary: upserting a row that is already stored unchanged is a no-op. -/
theorem upsert_noop (r : ProdRow) (t : List ProdRow) (hn : keysNodup t)
    (hf : findRow r.asin t = some r) : upsertRow r t = t := by
  have hmem : r ∈ t := List.mem_of_find?_eq_some hf
  have hk : hasKey r.asin t = true := by
    unfold hasKey
    exact List.any_eq_true.mpr ⟨r, hmem, by simp⟩
  unfold upsertRow
  rw [if_pos hk]
  have hpt : ∀ x ∈ t, (if x.asin == r.asin then r else x) = x := by
    intro x hx
    by_cases hb : x.asin == r.asin
    · rw [if_pos hb]
      exact (keys_inj hn hx hmem (by simpa using hb)).symm
    · rw [if_neg hb]
  calc t.map (fun x => if x.asin == r.asin then r else x) = t.map id :=
        List.map_congr_left hpt
    _ = t := List.map_id t

/-- Auxiliary: ingestion preserves key uniqueness. -/
theorem ingest_keysNodup (results : List ApifyProduct) (now : Nat) (t : List ProdRow)
    (h : keysNodup t) : keysNodup (ingestResults results now t) := by
  induction results generalizing t with
  | nil => exact h
  | cons p ps ih =>
      show keysNodup (ingestResults ps now (ingestStep now t p))
      apply ih
      unfold ingestStep
      by_cases hv : p.asin = ""
      · rw [if_pos hv]
        exact h
      · rw [if_neg hv]
        exact upsert_keysNodup _ t h

/-- Auxiliary: ingestion does not touch rows whose ASIN is not written. -/
theorem ingest_preserves_other (results : List ApifyProduct) (now : Nat)
    (t : List ProdRow) (a : String)
    (h : ∀ p ∈ results, p.asin ≠ "" → p.asin ≠ a) :
    findRow a (ingestResults results now t) = findRow a t := by
  induction results generalizing t with
  | nil => rfl
  | cons p ps ih =>
      show findRow a (ingestResults ps now (ingestStep now t p)) = _
      rw [ih (ingestStep now t p) (fun q hq hv => h q (List.mem_cons_of_mem p hq) hv)]
      unfold ingestStep
      by_cases hv : p.asin = ""
      · rw [if_pos hv]
      · rw [if_neg hv]
        exact findRow_upsert_other a (mkRow p now) t
          (Ne.symm (h p (List.mem_cons_self p ps) hv))

/-- Auxiliary: `validAsins` on a valid head. -/
theorem validAsins_cons_valid (q : ApifyProduct) (qs : List ApifyProduct)
    (hv : q.asin ≠ "") : validAsins (q :: qs) = q.asin :: validAsins qs := by
  unfold validAsins
  rw [List.filter_cons]
  simp [hv]

/-- Auxiliary: `validAsins` on an invalid head. -/
theorem validAsins_cons_invalid (q : ApifyProduct) (qs : List ApifyProduct)
    (hv : q.asin = "") : validAsins (q :: qs) = validAsins qs := by
  unfold validAsins
  rw [List.filter_cons]
  simp [hv]

/-- Auxiliary: after ingestion, each written ASIN maps to the row built
from its (unique) product. -/
theorem ingest_last_write (results : List ApifyProduct) (now : Nat) (t : List ProdRow)
    (p : ApifyProduct) (hnd : (validAsins results).Nodup) (hp : p ∈ results)
    (hv : p.asin ≠ "") :
    findRow p.asin (ingestResults results now t) = some (mkRow p now) := by
  induction results generalizing t with
  | nil => cases hp
  | cons q qs ih =>
      rcases List.mem_cons.mp hp with heq | hmem
      · subst heq
        rw [validAsins_cons_valid p qs hv] at hnd
        obtain ⟨hnotin, htail⟩ := List.nodup_cons.mp hnd
        have hnot : ∀ p2 ∈ qs, p2.asin ≠ "" → p2.asin ≠ p.asin := by
          intro p2 hp2 hv2 he
          apply hnotin
          unfold validAsins
          exact List.mem_map.mpr ⟨p2, List.mem_filter.mpr ⟨hp2, by simp [hv2]⟩, he⟩
        show findRow p.asin (ingestResults qs now (ingestStep now t p)) = _
        rw [ingest_preserves_other qs now (ingestStep now t p) p.asin hnot]
        unfold ingestStep
        rw [if_neg hv]
        exact findRow_upsert_self (mkRow p now) t
      · have htail : (validAsins qs).Nodup := by
          by_cases hq : q.asin = ""
          · rwa [validAsins_cons_invalid q qs hq] at hnd
          · rw [validAsins_cons_valid q qs hq] at hnd
            exact (List.nodup_cons.mp hnd).2
        show findRow p.asin (ingestResults qs now (ingestStep now t q)) = _
        exact ih (ingestStep now t q) htail hmem

/-- Auxiliary: a fold whose every step fixes the accumulator is the
identity. -/
theorem foldl_fixpoint (f : List ProdRow → ApifyProduct → List ProdRow)
    (ps : List ApifyProduct) (t : List ProdRow) (h : ∀ p ∈ ps, f t p = t) :
    ps.foldl f t = t := by
  induction ps with
  | nil => rfl
  | cons p ps2 ih =>
      show List.foldl f (f t p) ps2 = t
      rw [h p (List.mem_cons_self p ps2)]
      exact ih (fun q hq => h q (List.mem_cons_of_mem p hq))

/-- Claim C4: with unique table keys and a result set carrying each ASIN
once, ingesting the same external result set twice produces exactly the
state of ingesting it once, and the ASIN-keyed upsert never creates
duplicate product rows. -/
theorem ingest_twice_equals_once (results : List ApifyProduct) (now : Nat)
    (t : List ProdRow) (hn : keysNodup t) (hnd : (validAsins results).Nodup) :
    keysNodup (ingestResults results now t) ∧
    ingestResults results now (ingestResults results now t) =
      ingestResults results now t := by
  refine ⟨ingest_keysNodup results now t hn, ?_⟩
  have hTn : keysNodup (ingestResults results now t) := ingest_keysNodup results now t hn
  unfold ingestResults
  apply foldl_fixpoint
  intro p hp
  unfold ingestStep
  by_cases hv : p.asin = ""
  · rw [if_pos hv]
  · rw [if_neg hv]
    apply upsert_noop _ _ hTn
    exact ingest_last_write results now t p hnd hp hv

/-- Concrete scraped product used by the C4 witness. -/
def prod0W : ApifyProduct :=
  { asin := "B000TEST01", title := "T", brand := "B", price := 10, currency := "USD",
    images := ["i1"], thumbnailImage := some "i2", categories := ["c"], features := [],
    description := "d", inStock := true, inStockText := none,
    starsBreakdown := some ⟨1, 0, 0, 0, 0⟩, reviewsCount := 1,
    reviews := [⟨true⟩], attributes := [⟨"Item Weight", "1kg"⟩],
    bestsellerRanks := [], variantDetails := [] }

/-- Witness for C4 at a concrete one-product result set over the empty
table. -/
theorem ingest_twice_equals_once_witness :
    keysNodup ([] : List ProdRow) ∧ (validAsins [prod0W]).Nodup ∧
    (keysNodup (ingestResults [prod0W] 3 []) ∧
     ingestResults [prod0W] 3 (ingestResults [prod0W] 3 []) =
       ingestResults [prod0W] 3 []) :=
  ⟨by unfold keysNodup; simp, by decide,
   ingest_twice_equals_once [prod0W] 3 [] (by unfold keysNodup; simp) (by decide)⟩

/-- Claim C7 (amended): result ingestion validates only that the fetched
result set is an array: a non-array raises the validation error and marks
the task failed in both implementations, while an empty array passes the
primary implementation (the task completes with no rows written) and is
rejected only by the variant implementation. -/
theorem validation_rejects_non_array_accepts_empty (now : Nat) (t : List ProdRow)
    (task : ScrapingTask) :
    runProcessResults FetchedResults.notArray now t task =
      (t,
        { task with
            status := TaskStatus.failed
            error := some "Invalid results format from Apify" }) ∧
    runProcessResults (FetchedResults.arr []) now t task =
      (t, { task with completedAt := some now }) ∧
    runProcessResultsAlt FetchedResults.notArray now t task =
      (t,
        { task with
            status := TaskStatus.failed
            error := some "Invalid results format from Apify" }) ∧
    runProcessResultsAlt (FetchedResults.arr []) now t task =
      (t,
        { task with
            status := TaskStatus.failed
            error := some "Invalid results format from Apify" }) :=
  ⟨rfl, rfl, rfl, rfl⟩

/-- Task already observed `completed` by `monitorTask`, used by the C7
counterexample. -/
def taskCompletedW : ScrapingTask :=
  { status := TaskStatus.completed, error := none, completedAt := none }

/-- Counterexample for C7 as stated: an empty result set raises no
validation error in the primary implementation and the scrape task
completes successfully. -/
theorem empty_results_complete_without_error :
    (runProcessResults (FetchedResults.arr []) 7 [] taskCompletedW).2.status =
      TaskStatus.completed ∧
    (runProcessResults (FetchedResults.arr []) 7 [] taskCompletedW).2.error = none ∧
    (runProcessResults (FetchedResults.arr []) 7 [] taskCompletedW).2.completedAt =
      some 7 ∧
    ¬((runProcessResults (FetchedResults.arr []) 7 [] taskCompletedW).2.status =
      TaskStatus.failed) :=
  ⟨rfl, rfl, rfl, by decide⟩

end Scraper
